import Mathlib

/-!
Verification of the Pixelle-Video e-commerce scraping engine
(`pixelle_video/services/ecommerce/{taobao,base,models}.py`) against its
natural-language specification.

Strings are modelled as `List Char` (Python `str` is a sequence of code
points).  Effectful browser operations are modelled by passing their
observable outcomes explicitly (page data records, fetch oracles,
aggregate body outcomes); the pure string-processing algorithms are
translated directly from the source.
-/

namespace PixelleVideo

/-- Substring test: `containsSub pat s` is Python `pat in s`. -/
def containsSub (pat : List Char) : List Char → Bool
  | [] => pat.isEmpty
  | c :: t => pat.isPrefixOf (c :: t) || containsSub pat t

/-- Python `str.lower()` (ASCII case fold suffices for the inputs used here). -/
def toLowerL (s : List Char) : List Char := s.map Char.toLower

/-- Python whitespace class used by `str.strip()` and regex `\s`. -/
def isSpaceC (c : Char) : Bool :=
  c = ' ' || c = '\t' || c = '\n' || c = '\r' || c = '\x0b' || c = '\x0c'

/-- Python `str.strip()`: drop leading and trailing whitespace. -/
def stripL (s : List Char) : List Char :=
  ((s.dropWhile isSpaceC).reverse.dropWhile isSpaceC).reverse

/-- ASCII digit, regex `\d` (on the ASCII URLs/markup handled here). -/
def isDigitC (c : Char) : Bool := c.isDigit

/-- Regex class `[a-zA-Z0-9]`. -/
def isAlnumC (c : Char) : Bool := c.isAlpha || c.isDigit

/-- Drop the last `n` characters. -/
def dropSuffixN (n : Nat) (s : List Char) : List Char := s.take (s.length - n)

/-! ## URL parsing (`urllib.parse`, as called by `_extract_product_id`)

`urlparse(url).query` splits the fragment off at the first `#`, then the
query is everything after the first `?` of the remainder.  `parse_qs`
splits the query on `&`, splits each non-empty pair at the first `=`
(pairs without `=` or with an empty value are dropped under the default
options), and percent-decodes names and values with `unquote_plus`
(`+` to space, maximal runs of `%XX` byte triples decoded as UTF-8 with
replacement). -/

/-- Split at the first occurrence of `sep`: text before it, and the rest
after it when present. -/
def splitFirst (sep : Char) : List Char → List Char × Option (List Char)
  | [] => ([], none)
  | c :: t =>
    if c = sep then ([], some t)
    else
      let r := splitFirst sep t
      (c :: r.1, r.2)

/-- Python `str.split(sep)`: all segments, empty segments included. -/
def splitAll (sep : Char) : List Char → List (List Char)
  | [] => [[]]
  | c :: t =>
    let r := splitAll sep t
    if c = sep then [] :: r
    else
      match r with
      | [] => [[c]]
      | h :: rest => (c :: h) :: rest

/-- Hexadecimal digit value, regex `[0-9a-fA-F]`. -/
def hexVal (c : Char) : Option Nat :=
  if '0' ≤ c ∧ c ≤ '9' then some (c.toNat - '0'.toNat)
  else if 'a' ≤ c ∧ c ≤ 'f' then some (c.toNat - 'a'.toNat + 10)
  else if 'A' ≤ c ∧ c ≤ 'F' then some (c.toNat - 'A'.toNat + 10)
  else none

/-- Consume the maximal leading run of valid `%XX` triples as bytes,
returning the bytes and the unconsumed remainder. -/
def pctBytes : List Char → List Nat × List Char
  | '%' :: a :: b :: t =>
    match hexVal a, hexVal b with
    | some x, some y =>
      let r := pctBytes t
      ((x * 16 + y) :: r.1, r.2)
    | _, _ => ([], '%' :: a :: b :: t)
  | s => ([], s)

/-- UTF-8 continuation byte `0x80..0xBF`. -/
def isContB (b : Nat) : Bool := 0x80 ≤ b ∧ b ≤ 0xBF

/-- The Unicode replacement character U+FFFD. -/
def repC : Char := Char.ofNat 0xFFFD

/-- Decode one UTF-8 scalar (or one replacement for an invalid or
truncated sequence) from lead byte `b` and remaining bytes `t`,
returning the character and the unconsumed bytes. -/
def utf8Step (b : Nat) (t : List Nat) : Char × List Nat :=
  if b < 0x80 then (Char.ofNat b, t)
  else if 0xC2 ≤ b ∧ b ≤ 0xDF then
    match t with
    | [] => (repC, [])
    | b1 :: t1 =>
      if isContB b1 then (Char.ofNat ((b - 0xC0) * 64 + (b1 - 0x80)), t1)
      else (repC, b1 :: t1)
  else if 0xE0 ≤ b ∧ b ≤ 0xEF then
    match t with
    | [] => (repC, [])
    | b1 :: t1 =>
      let okB1 : Bool :=
        if b = 0xE0 then 0xA0 ≤ b1 ∧ b1 ≤ 0xBF
        else if b = 0xED then 0x80 ≤ b1 ∧ b1 ≤ 0x9F
        else isContB b1
      if okB1 then
        match t1 with
        | [] => (repC, [])
        | b2 :: t2 =>
          if isContB b2 then
            (Char.ofNat ((b - 0xE0) * 4096 + (b1 - 0x80) * 64 + (b2 - 0x80)), t2)
          else (repC, b2 :: t2)
      else (repC, b1 :: t1)
  else if 0xF0 ≤ b ∧ b ≤ 0xF4 then
    match t with
    | [] => (repC, [])
    | b1 :: t1 =>
      let okB1 : Bool :=
        if b = 0xF0 then 0x90 ≤ b1 ∧ b1 ≤ 0xBF
        else if b = 0xF4 then 0x80 ≤ b1 ∧ b1 ≤ 0x8F
        else isContB b1
      if okB1 then
        match t1 with
        | [] => (repC, [])
        | b2 :: t2 =>
          if isContB b2 then
            match t2 with
            | [] => (repC, [])
            | b3 :: t3 =>
              if isContB b3 then
                (Char.ofNat ((b - 0xF0) * 262144 + (b1 - 0x80) * 4096 +
                  (b2 - 0x80) * 64 + (b3 - 0x80)), t3)
              else (repC, b3 :: t3)
          else (repC, b2 :: t2)
      else (repC, b1 :: t1)
  else (repC, t)

/-- Lemma: `utf8Step` never grows the remaining byte list. -/
theorem utf8Step_snd_length_le (b : Nat) (t : List Nat) :
    (utf8Step b t).2.length ≤ t.length := by
  unfold utf8Step
  repeat' split
  all_goals simp_all
  all_goals repeat' split
  all_goals simp_all
  all_goals omega

/-- Decode a byte sequence as UTF-8 with replacement-on-error (CPython
`bytes.decode('utf-8', errors='replace')`): an invalid or truncated
sequence contributes one U+FFFD for its consumed prefix and decoding
resumes at the offending byte. -/
def utf8DecodeReplace : List Nat → List Char
  | [] => []
  | b :: t =>
    let r := utf8Step b t
    r.1 :: utf8DecodeReplace r.2
termination_by bs => bs.length
decreasing_by
  simp only [List.length_cons]
  exact Nat.lt_succ_of_le (utf8Step_snd_length_le _ _)

/-- The remainder left by `pctBytes` is no longer than its input. -/
theorem pctBytes_snd_length_le (s : List Char) : (pctBytes s).2.length ≤ s.length := by
  induction s using pctBytes.induct with
  | case1 a b t x y hy hx ih =>
    simp only [pctBytes, hx, hy, List.length_cons]
    omega
  | case2 a b t hx =>
    rcases ha : hexVal a with _ | x
    · simp [pctBytes, ha]
    · rcases hb : hexVal b with _ | y
      · simp [pctBytes, ha, hb]
      · exact (hx x y ha hb).elim
  | case3 s h => simp [pctBytes]

/-- CPython `urllib.parse.unquote_plus`: `+` becomes space; maximal runs
of `%XX` triples are decoded as UTF-8 bytes; a `%` not followed by two
hex digits stays literal. -/
def unquotePlus : List Char → List Char
  | [] => []
  | '+' :: t => ' ' :: unquotePlus t
  | '%' :: a :: b :: t =>
    match hexVal a, hexVal b with
    | some x, some y =>
      let r := pctBytes t
      utf8DecodeReplace ((x * 16 + y) :: r.1) ++ unquotePlus r.2
    | _, _ => '%' :: unquotePlus (a :: b :: t)
  | c :: t => c :: unquotePlus t
termination_by s => s.length
decreasing_by
  all_goals simp
  · have := pctBytes_snd_length_le t
    omega

/-- Model of `urlparse(url).query`: strip the fragment at the first `#`, then take
everything after the first `?` (empty when there is no `?`). -/
def urlQuery (url : List Char) : List Char :=
  let beforeFrag := (splitFirst '#' url).1
  match (splitFirst '?' beforeFrag).2 with
  | some q => q
  | none => []

/-- Model of `urllib.parse.parse_qsl` with default options: split on `&`, skip
empty segments, segments without `=`, and empty values; percent-decode
names and values. -/
def parseQsl (qs : List Char) : List (List Char × List Char) :=
  (splitAll '&' qs).filterMap fun nv =>
    if nv.isEmpty then none
    else
      match (splitFirst '=' nv).2 with
      | none => none
      | some v =>
        if v.isEmpty then none
        else some (unquotePlus (splitFirst '=' nv).1, unquotePlus v)

/-- Model of `TaobaoScraper._extract_product_id` (taobao.py lines 135-139):
`parse_qs(urlparse(url).query).get("id", [None])[0]` — the first value of
the `id` query parameter, or `None` when absent. -/
def extract_product_id (url : List Char) : Option (List Char) :=
  match (parseQsl (urlQuery url)).filter (fun p => p.1 == "id".toList) with
  | [] => none
  | p :: _ => some p.2

/-- Model of `TaobaoScraper._detect_platform` (taobao.py lines 141-145):
`"tmall"` when the URL contains `"tmall.com"`, else `"taobao"`. -/
def detect_platform (url : List Char) : List Char :=
  if containsSub ("tmall.com".toList) url then "tmall".toList else "taobao".toList

/-! ## Highlights / services / promotions (taobao.py lines 433-501) -/

/-- Order-preserving first-occurrence deduplication with an accumulator of
already-seen elements (Python `dict.fromkeys` insertion-order semantics). -/
def firstSeenAux [DecidableEq α] (seen : List α) : List α → List α
  | [] => []
  | x :: t => if x ∈ seen then firstSeenAux seen t else x :: firstSeenAux (x :: seen) t

/-- Model of `list(dict.fromkeys(l))`: keep the first occurrence of each element. -/
def firstSeen [DecidableEq α] (l : List α) : List α := firstSeenAux [] l

/-- The shared collection loop of `_extract_highlights`, `_extract_services`
and `_extract_promotions`: for each selector, take the first `maxElems`
element texts, keep those whose stripped form has length strictly between
`lo` and `hi`, and append the stripped forms. -/
def collectTexts (maxElems lo hi : Nat) (selectorTexts : List (List (List Char))) :
    List (List Char) :=
  selectorTexts.foldl
    (fun acc texts =>
      acc ++ (texts.take maxElems).filterMap (fun t =>
        let s := stripL t
        if lo < s.length ∧ s.length < hi then some s else none))
    []

/-- Model of `TaobaoScraper._extract_highlights` (lines 433-456): collect (10 per
selector, stripped length in (2, 50)), dedup first-seen, cap at 8. -/
def extract_highlights (selectorTexts : List (List (List Char))) : List (List Char) :=
  (firstSeen (collectTexts 10 2 50 selectorTexts)).take 8

/-- Model of `TaobaoScraper._extract_services` (lines 458-478): collect (10 per
selector, stripped length in (2, 50)), dedup first-seen, cap at 6. -/
def extract_services (selectorTexts : List (List (List Char))) : List (List Char) :=
  (firstSeen (collectTexts 10 2 50 selectorTexts)).take 6

/-- Model of `TaobaoScraper._extract_promotions` (lines 480-501): collect (5 per
selector, stripped length in (3, 100)), dedup first-seen, cap at 5. -/
def extract_promotions (selectorTexts : List (List (List Char))) : List (List Char) :=
  (firstSeen (collectTexts 5 3 100 selectorTexts)).take 5

/-! ## Image resolver (`_extract_main_images`, taobao.py lines 503-572) -/

/-- Leftmost match of the content-identifier regex `(O1CN01[a-zA-Z0-9]+)`:
the literal `O1CN01` followed by a maximal non-empty alphanumeric run. -/
def extractImgId : List Char → Option (List Char)
  | [] => none
  | c :: t =>
    if "O1CN01".toList.isPrefixOf (c :: t) then
      let run := ((c :: t).drop 6).takeWhile isAlnumC
      if run.isEmpty then extractImgId t
      else some ("O1CN01".toList ++ run)
    else extractImgId t

/-- Split off the maximal trailing digit run: `(rest, digits)`. -/
def splitTrailingDigits (s : List Char) : List Char × List Char :=
  let d := (s.reverse.takeWhile isDigitC).reverse
  (dropSuffixN d.length s, d)

/-- Matcher for `re.sub(r'\.jpg_q\d+\.jpg_\.webp$', ...)`: the string ends
in `.jpg_q` + non-empty digits + `.jpg_.webp`. -/
def matchQualityWebp (s : List Char) : Bool :=
  ".jpg_.webp".toList.isSuffixOf s &&
    (let p := splitTrailingDigits (dropSuffixN 10 s)
     !p.2.isEmpty && ".jpg_q".toList.isSuffixOf p.1)

/-- Matcher for `re.sub(r'\.jpg_q\d+\.jpg$', ...)`: the string ends in
`.jpg_q` + non-empty digits + `.jpg`. -/
def matchQualityJpg (s : List Char) : Bool :=
  ".jpg".toList.isSuffixOf s &&
    (let p := splitTrailingDigits (dropSuffixN 4 s)
     !p.2.isEmpty && ".jpg_q".toList.isSuffixOf p.1)

/-- Match of the regex fragment `\d+x\d+[^.]*` against a dot-free run:
a non-empty digit run, then `x`, then at least one digit. -/
def matchDimsRun (m : List Char) : Bool :=
  let d1 := m.takeWhile isDigitC
  !d1.isEmpty &&
    (match m.drop d1.length with
     | 'x' :: c :: _ => isDigitC c
     | _ => false)

/-- Matcher for `re.sub(r'\.jpg_\d+x\d+[^.]*\.jpg_\.webp$', ...)`: before
the final `.jpg_.webp`, the maximal trailing dot-free run must be
`jpg_` + a `WxH`-style run, preceded by a `.`. -/
def matchSizeWebp (s : List Char) : Bool :=
  ".jpg_.webp".toList.isSuffixOf s &&
    (let s1 := dropSuffixN 10 s
     let run := (s1.reverse.takeWhile (fun c => !(c = '.'))).reverse
     run.length < s1.length && "jpg_".toList.isPrefixOf run &&
       matchDimsRun (run.drop 4))

/-- The three suffix-rewriting substitutions applied to each kept URL
(taobao.py lines 560-567), in source order. -/
def cleanImageUrl (s : List Char) : List Char :=
  let s1 :=
    if matchQualityWebp s then
      dropSuffixN 6 (splitTrailingDigits (dropSuffixN 10 s)).1 ++ ".jpg_.webp".toList
    else s
  let s2 :=
    if matchQualityJpg s1 then
      dropSuffixN 6 (splitTrailingDigits (dropSuffixN 4 s1)).1 ++ ".jpg".toList
    else s1
  if matchSizeWebp s2 then
    let run := ((dropSuffixN 10 s2).reverse.takeWhile (fun c => !(c = '.'))).reverse
    dropSuffixN (run.length + 1) (dropSuffixN 10 s2) ++ ".jpg_.webp".toList
  else s2

/-- The seller-identity placeholder filter (taobao.py line 549):
`if seller_id and f"_!!{seller_id}" not in url: continue`. -/
def sellerSkip (seller_id : Option (List Char)) (url : List Char) : Bool :=
  match seller_id with
  | some sid => !sid.isEmpty && !containsSub ("_!!".toList ++ sid) url
  | none => false

/-- The dedup-and-resolve loop of `_extract_main_images` (lines 544-569),
carrying the `seen_ids` set; each kept URL is paired with the content
identifier under which it was kept. -/
def imgLoop (seller_id : Option (List Char)) (seen_ids : List (List Char)) :
    List (List Char) → List (List Char × List Char)
  | [] => []
  | url :: rest =>
    if sellerSkip seller_id url then imgLoop seller_id seen_ids rest
    else
      match extractImgId url with
      | none => imgLoop seller_id seen_ids rest
      | some img_id =>
        if img_id ∈ seen_ids then imgLoop seller_id seen_ids rest
        else (img_id, cleanImageUrl url) :: imgLoop seller_id (img_id :: seen_ids) rest

/-- Model of `_extract_main_images` on an already-collected candidate list: the
kept URLs, resolved to high-resolution form, in encounter order. -/
def extract_main_images (seller_id : Option (List Char))
    (candidates : List (List Char)) : List (List Char) :=
  (imgLoop seller_id [] candidates).map Prod.snd

/-- Candidate collection (lines 523-541): gallery thumbnail `src`
attributes when the gallery element exists, with the intercepted API
images as fallback when no thumbnail produced a URL. -/
def mainImageCandidates (galleryThumbSrcs : Option (List (Option (List Char))))
    (api_images : List (List Char)) : List (List Char) :=
  let main_images :=
    match galleryThumbSrcs with
    | some srcs => srcs.filterMap id
    | none => []
  if main_images.isEmpty && !api_images.isEmpty then api_images else main_images

/-! ## Seller-identity vote (`_extract_seller_id`, taobao.py lines 656-693) -/

/-- Model of `re.findall(r'_!!(\d{10,13})', content)`: scan left to right; at each
`_!!` capture 10-13 digits (greedy, so 13 when the digit run is longer)
and resume after the captured digits; on a failed attempt advance one
character. -/
def findallAux : Nat → List Char → List (List Char)
  | 0, _ => []
  | _ + 1, [] => []
  | fuel + 1, c :: t =>
    if c = '_' && "!!".toList.isPrefixOf t then
      let run := (t.drop 2).takeWhile isDigitC
      if 10 ≤ run.length then
        let tok := run.take 13
        tok :: findallAux fuel ((t.drop 2).drop tok.length)
      else findallAux fuel t
    else findallAux fuel t

/-- The scan above, with fuel covering the whole input (each step consumes
at least one character, so `s.length` steps always suffice). -/
def findallSellerIds (s : List Char) : List (List Char) := findallAux s.length s

/-- Platform-generic identifier test: `id.startswith('6000000')`. -/
def isGenericId (s : List Char) : Bool := "6000000".toList.isPrefixOf s

/-- The non-generic seller-identifier candidates, in scan order
(taobao.py line 671). -/
def realIds (content : List Char) : List (List Char) :=
  (findallSellerIds content).filter (fun i => !isGenericId i)

/-- Running-maximum fold: replace the best only on a strictly larger
count, so the earliest maximal element wins ties. -/
def voteAux (cnt : List Char → Nat) (best : List Char) :
    List (List Char) → List Char
  | [] => best
  | x :: t => voteAux cnt (if cnt best < cnt x then x else best) t

/-- Model of `Counter(l).most_common(1)`: the most frequent element, ties broken by
first occurrence (Counter preserves insertion order and `nlargest` is
order-stable). -/
def most_common1 (l : List (List Char)) : Option (List Char) :=
  match l with
  | [] => none
  | x :: t => some (voteAux (fun s => l.count s) x t)

/-- Regex class `["\s:=]` from the fallback seller-ID pattern. -/
def sepClass (c : Char) : Bool := c = '"' || isSpaceC c || c = ':' || c = '='

/-- Anchored attempt of `seller[Ii]d["\s:=]+["\']?(\d{10,13})` at the head
of `s`. -/
def matchSellerAt (s : List Char) : Option (List Char) :=
  if "seller".toList.isPrefixOf s then
    match s.drop 6 with
    | i :: 'd' :: rest2 =>
      if i = 'I' || i = 'i' then
        let seps := rest2.takeWhile sepClass
        if seps.isEmpty then none
        else
          let rest3 := rest2.drop seps.length
          let rest4 :=
            match rest3 with
            | q :: r => if q = '"' || q = '\'' then r else rest3
            | [] => rest3
          let digits := rest4.takeWhile isDigitC
          if 10 ≤ digits.length then some (digits.take 13) else none
      else none
    | _ => none
  else none

/-- Model of `re.search` over the page content with the fallback pattern: leftmost
match wins. -/
def fallbackScan : List Char → Option (List Char)
  | [] => none
  | c :: t =>
    match matchSellerAt (c :: t) with
    | some d => some d
    | none => fallbackScan t

/-- Model of `TaobaoScraper._extract_seller_id` (lines 656-693): majority vote over
non-generic identifier tokens from the markup, falling back to a
`sellerId`-style key search; a generic fallback hit is rejected. -/
def extract_seller_id (content : List Char) : Option (List Char) :=
  match most_common1 (realIds content) with
  | some sid => some sid
  | none =>
    match fallbackScan content with
    | some sid => if isGenericId sid then none else some sid
    | none => none

/-! ## Image downloader (`_download_images`, taobao.py lines 695-741)

The per-URL `page.goto(url)` fetch is modelled by an oracle mapping the
attempt index and (protocol-fixed) URL to its observable outcome. -/

/-- Outcome of one fetch: a raised transport exception, a `None` response,
or a response with an HTTP status and body bytes. -/
inductive FetchOutcome where
  | exn (msg : List Char)
  | noResponse
  | resp (status : Nat) (body : List Nat)
  deriving Repr, DecidableEq

/-- Line 717: only `response and response.status == 200` is written. -/
def fetchIsOk : FetchOutcome → Bool
  | .resp 200 _ => true
  | _ => false

/-- Lines 709-710: protocol-relative URLs get an `https:` scheme. -/
def fixProtocol (url : List Char) : List Char :=
  if "//".toList.isPrefixOf url then "https:".toList ++ url else url

/-- Lines 721-723: extension inferred from the URL, `.jpg` by default. -/
def extFor (url : List Char) : List Char :=
  if containsSub (".png".toList) url then ".png".toList else ".jpg".toList

/-- Python `f"{i:02d}"`: decimal digits, zero-padded to width at least 2. -/
def pad2 (n : Nat) : List Char :=
  let s := Nat.toDigits 10 n
  if s.length < 2 then '0' :: s else s

/-- Line 725: `f"main_{i:02d}{ext}"`. -/
def imageFileName (i : Nat) (url : List Char) : List Char :=
  "main_".toList ++ pad2 i ++ extFor url

/-- The download loop (lines 707-738): `enumerate(main_images, 1)`;
each successful 200 fetch writes `main_{i:02d}{ext}` and is recorded,
any other outcome is skipped and the loop continues with the next index. -/
def download_images (fetch : Nat → List Char → FetchOutcome) :
    Nat → List (List Char) → List (Nat × List Char)
  | _, [] => []
  | i, url :: rest =>
    let u := fixProtocol url
    if fetchIsOk (fetch i u) then
      (i, imageFileName i u) :: download_images fetch (i + 1) rest
    else download_images fetch (i + 1) rest

/-- Model of `product.local_images` after the loop (lines 725-740): the paths
`{output_dir}/images/{filename}` of the successfully written files, in
download order. -/
def localImagePaths (output_dir : List Char) (fetch : Nat → List Char → FetchOutcome)
    (main_images : List (List Char)) : List (List Char) :=
  (download_images fetch 1 main_images).map
    (fun p => output_dir ++ "/images/".toList ++ p.2)

/-! ## Platform registry (`ScraperFactory`, base.py lines 68-126) -/

/-- The one scraper class registered at module load (taobao.py lines
745-746 register it under both `"taobao"` and `"tmall"`). -/
inductive ScraperClass where
  | taobaoScraperClass
  deriving Repr, DecidableEq

/-- Model of `ScraperFactory._scrapers` after `taobao.py` is imported; `register`
lowercases keys, and both registrations store lowercase tags. -/
def scraperRegistry : List (List Char × ScraperClass) :=
  [("taobao".toList, .taobaoScraperClass), ("tmall".toList, .taobaoScraperClass)]

/-- The state set up by `TaobaoScraper.__init__` (taobao.py lines 42-68):
plain field assignments; `_context` and `_playwright` start as `None` and
the browser is only launched later by `_ensure_browser`. -/
structure TaobaoScraperState where
  headless : Bool
  user_agent : List Char
  timeout : Nat
  user_data_dir : List Char
  context : Option Unit
  playwright : Option Unit
  deriving Repr, DecidableEq

/-- Default user agent string from `__init__`. -/
def defaultUserAgent : List Char :=
  ("Mozilla/5.0 (Macintosh; Intel Mac OS X 10_15_7) " ++
    "AppleWebKit/537.36 (KHTML, like Gecko) Chrome/120.0.0.0 Safari/537.36").toList

/-- Model of `TaobaoScraper.__init__`: records configuration, allocates no browser. -/
def taobaoScraperInit (headless : Bool := true) (user_agent : Option (List Char) := none)
    (timeout : Nat := 30000) (user_data_dir : Option (List Char) := none) :
    TaobaoScraperState :=
  { headless := headless
    user_agent := user_agent.getD defaultUserAgent
    timeout := timeout
    user_data_dir := user_data_dir.getD ("~/.pixelle/browser_data".toList)
    context := none
    playwright := none }

/-- Registry lookup and construction (base.py lines 109-112). -/
def createFromRegistry (p : List Char) : Except (List Char) TaobaoScraperState :=
  match scraperRegistry.find? (fun e => e.1 == p) with
  | none => Except.error ("Unsupported platform: ".toList ++ p)
  | some e =>
    match e.2 with
    | .taobaoScraperClass => Except.ok (taobaoScraperInit)

/-- Model of `ScraperFactory.create` (base.py lines 85-112): lowercase the tag;
a tag starting with `http` is treated as a URL and mapped to `"taobao"`
when it contains `taobao.com` or `tmall.com` (else a `ValueError`);
otherwise the tag is looked up in the registry (`ValueError` when
absent). -/
def factory_create (platform : List Char) : Except (List Char) TaobaoScraperState :=
  if "http".toList.isPrefixOf (toLowerL platform) then
    if containsSub ("taobao.com".toList) (toLowerL platform) ||
        containsSub ("tmall.com".toList) (toLowerL platform) then
      createFromRegistry ("taobao".toList)
    else Except.error ("Cannot detect platform from URL: ".toList ++ toLowerL platform)
  else createFromRegistry (toLowerL platform)

/-! ## Data model (`models.py`) -/

/-- Model of `ProductInfo` (pydantic model in `models.py`): the extracted record. -/
structure ProductInfo where
  url : List Char
  platform : List Char := "taobao".toList
  product_id : Option (List Char) := none
  title : List Char
  price : Option (List Char) := none
  original_price : Option (List Char) := none
  shop_name : Option (List Char) := none
  shop_url : Option (List Char) := none
  main_images : List (List Char) := []
  detail_images : List (List Char) := []
  local_images : List (List Char) := []
  shipping : Option (List Char) := none
  freight : Option (List Char) := none
  sales : Option (List Char) := none
  rating : Option (List Char) := none
  review_count : Option (List Char) := none
  description : Option (List Char) := none
  highlights : List (List Char) := []
  specifications : List (List Char × List Char) := []
  services : List (List Char) := []
  promotions : List (List Char) := []
  sku_options : List (List Char × List (List Char)) := []
  image_descriptions : List (List Char) := []
  raw_html_path : Option (List Char) := none
  raw_json_path : Option (List Char) := none
  screenshot_path : Option (List Char) := none
  deriving Repr, DecidableEq

/-- Model of `ScrapeResult` (models.py): envelope returned by one scrape call. -/
structure ScrapeResult where
  success : Bool
  product : Option ProductInfo := none
  error : Option (List Char) := none
  elapsed_seconds : Float := 0.0

/-- Observable results of the per-field page queries performed by
`_extract_product_info` (taobao.py lines 286-337): each field extractor
awaits the browser, so its outcome is carried here as data. -/
structure PageData where
  titleResult : List Char
  priceResult : Option (List Char)
  originalPriceText : Option (List Char)
  shopNameResult : Option (List Char)
  shippingText : Option (List Char)
  freightText : Option (List Char)
  salesText : Option (List Char)
  ratingText : Option (List Char)
  descriptionText : Option (List Char)
  highlightTexts : List (List (List Char))
  serviceTexts : List (List (List Char))
  promotionTexts : List (List (List Char))
  galleryThumbSrcs : Option (List (Option (List Char)))
  pageContent : List Char

/-- Model of `TaobaoScraper._extract_product_info` (lines 286-337): the record is
created with `platform` and `product_id` computed from the URL alone,
then the page-dependent fields are filled in. -/
def extract_product_info (url : List Char) (pd : PageData)
    (api_images : List (List Char)) : ProductInfo :=
  { url := url
    platform := detect_platform url
    product_id := extract_product_id url
    title := pd.titleResult
    price := pd.priceResult
    original_price := pd.originalPriceText
    shop_name := pd.shopNameResult
    shipping := pd.shippingText
    freight := pd.freightText
    sales := pd.salesText
    rating := pd.ratingText
    description := pd.descriptionText
    highlights := extract_highlights pd.highlightTexts
    services := extract_services pd.serviceTexts
    promotions := extract_promotions pd.promotionTexts
    main_images := extract_main_images (extract_seller_id pd.pageContent)
      (mainImageCandidates pd.galleryThumbSrcs api_images) }

/-! ## Scrape boundary (`TaobaoScraper.scrape`, taobao.py lines 147-284)

`scrape` wraps its whole body (browser setup, navigation, extraction,
persistence, downloads, page close) in one `try/except Exception`.  The
aggregate outcome of that body is modelled as an `Except`: `.ok product`
when the body runs to completion and produces a `ProductInfo`, `.error e`
when any step raises an exception with message `e`.  The success branch
returns `ScrapeResult(success=True, product=product, elapsed_seconds=...)`
and the `except` branch returns
`ScrapeResult(success=False, error=str(e), elapsed_seconds=...)`. -/
def scrape (body : Except (List Char) ProductInfo) (elapsed : Float) : ScrapeResult :=
  match body with
  | .ok product => { success := true, product := some product, elapsed_seconds := elapsed }
  | .error e => { success := false, error := some e, elapsed_seconds := elapsed }

/-! ## Spec-side definitions and concrete scenario data -/

/-- Modelled from the spec (section 4.4 step 4): when no seller identity
was found, no identity filter is applied — the candidates go straight
through deduplication (step 5) and high-resolution rewriting (step 6). -/
def dedupResolve (seen : List (List Char)) : List (List Char) → List (List Char × List Char)
  | [] => []
  | url :: rest =>
    match extractImgId url with
    | none => dedupResolve seen rest
    | some img_id =>
      if img_id ∈ seen then dedupResolve seen rest
      else (img_id, cleanImageUrl url) :: dedupResolve (img_id :: seen) rest

/-- Modelled from the spec: the URL's domain, read as `urlparse` netloc —
the text after the first `//`, up to the next `/`, `?` or `#`. -/
def afterDoubleSlash : List Char → Option (List Char)
  | [] => none
  | c :: t => if c = '/' && "/".toList.isPrefixOf t then some (t.drop 1) else afterDoubleSlash t

/-- Modelled from the spec: domain of a URL (empty when no `//`). -/
def urlDomain (url : List Char) : List Char :=
  match afterDoubleSlash url with
  | none => []
  | some r => r.takeWhile (fun c => !(c = '/' || c = '?' || c = '#'))

/-- Three image URLs for the download partial-failure scenario. -/
def demoUrls : List (List Char) :=
  ["https://cdn.example/a.jpg".toList,
   "https://cdn.example/b.jpg".toList,
   "https://cdn.example/c.jpg".toList]

/-- Fetch oracle where the second attempt returns HTTP 404 and the others
return HTTP 200. -/
def demoFetch (i : Nat) (_url : List Char) : FetchOutcome :=
  if i = 2 then .resp 404 [] else .resp 200 [7]

/-- Fetch oracle where every attempt returns HTTP 200. -/
def demoFetchOk (_i : Nat) (_url : List Char) : FetchOutcome := .resp 200 [7]

/-- Synthetic page markup holding seller-identifier token A
(`1111111111`) 5 times, B (`2222222222`) 2 times and a platform-generic
token (`6000000001`) 10 times. -/
def voteContent : List Char :=
  ("_!!6000000001 _!!1111111111 _!!6000000001 _!!2222222222 _!!6000000001 " ++
   "_!!1111111111 _!!6000000001 _!!6000000001 _!!1111111111 _!!6000000001 " ++
   "_!!2222222222 _!!6000000001 _!!1111111111 _!!6000000001 _!!6000000001 " ++
   "_!!1111111111 _!!6000000001").toList

/-- Concrete page-data record (empty best-effort fields) used to
instantiate theorems at a specific input. -/
def demoPageData : PageData :=
  { titleResult := "Premium Wireless Mouse".toList
    priceResult := none
    originalPriceText := none
    shopNameResult := none
    shippingText := none
    freightText := none
    salesText := none
    ratingText := none
    descriptionText := none
    highlightTexts := []
    serviceTexts := []
    promotionTexts := []
    galleryThumbSrcs := none
    pageContent := [] }

/-! ## Theorems -/

/-- C1: for every input to `scrape` (any body outcome), the returned
`ScrapeResult` populates exactly one of product and error: on the success
path `success = true`, the product is present and the error absent; on
any caught exception `success = false`, the error message is present and
the product absent. -/
theorem scrape_exactly_one_of_product_error
    (body : Except (List Char) ProductInfo) (elapsed : Float) :
    ((scrape body elapsed).success = true ∧
      (∃ p, (scrape body elapsed).product = some p) ∧
      (scrape body elapsed).error = none) ∨
    ((scrape body elapsed).success = false ∧
      (scrape body elapsed).product = none ∧
      (∃ e, (scrape body elapsed).error = some e)) := by
  cases body with
  | ok p => exact Or.inl ⟨rfl, ⟨p, rfl⟩, rfl⟩
  | error e => exact Or.inr ⟨rfl, rfl, ⟨e, rfl⟩⟩

/-- C10: the `platform` and `product_id` fields of the extracted record
are pure functions of the URL, independent of all page data and API
images: `platform` is `"tmall"` iff the URL contains `"tmall.com"` (and
`"taobao"` otherwise), and `product_id` is the first value of the `id`
query parameter, or `none` when that parameter is absent. -/
theorem product_info_platform_id_pure_in_url (url : List Char) (pd : PageData)
    (api_images : List (List Char)) :
    ((extract_product_info url pd api_images).platform = "tmall".toList ↔
      containsSub ("tmall.com".toList) url = true) ∧
    (containsSub ("tmall.com".toList) url = false →
      (extract_product_info url pd api_images).platform = "taobao".toList) ∧
    (extract_product_info url pd api_images).product_id =
      ((parseQsl (urlQuery url)).filter (fun p => p.1 == "id".toList)).head?.map Prod.snd := by
  have hd : detect_platform url =
      if containsSub ("tmall.com".toList) url then "tmall".toList else "taobao".toList := rfl
  refine ⟨?_, ?_, ?_⟩
  · show detect_platform url = "tmall".toList ↔ _
    rw [hd]
    by_cases h : containsSub ("tmall.com".toList) url = true
    · rw [if_pos h]
      exact iff_of_true rfl h
    · rw [if_neg h]
      refine iff_of_false (fun hc => absurd hc (by decide)) h
  · intro h
    show detect_platform url = _
    rw [hd, if_neg]
    simp only [Bool.not_eq_true]
    exact h
  · show extract_product_id url = _
    unfold extract_product_id
    rcases hf : (parseQsl (urlQuery url)).filter (fun p => p.1 == "id".toList) with _ | ⟨p, t⟩ <;>
      rw [hf] <;> simp

/-- C10 witness: at a concrete Taobao product URL (no `tmall.com`
substring), the platform field is `taobao`. -/
theorem product_info_platform_witness :
    containsSub ("tmall.com".toList)
      ("https://item.taobao.com/item.htm?id=12345".toList) = false ∧
    (extract_product_info ("https://item.taobao.com/item.htm?id=12345".toList)
      demoPageData []).platform = "taobao".toList :=
  ⟨by decide,
    (product_info_platform_id_pure_in_url
      ("https://item.taobao.com/item.htm?id=12345".toList) demoPageData []).2.1 (by decide)⟩

/-- Every result of `firstSeenAux seen l` is a sublist of `l`. -/
theorem firstSeenAux_sublist [DecidableEq α] (seen : List α) (l : List α) :
    (firstSeenAux seen l).Sublist l := by
  induction l generalizing seen with
  | nil => simp [firstSeenAux]
  | cons x t ih =>
    simp only [firstSeenAux]
    split
    · exact (ih seen).cons x
    · exact (ih (x :: seen)).cons₂ x

/-- Elements produced by `firstSeenAux seen l` are never in `seen`. -/
theorem mem_firstSeenAux_not_seen [DecidableEq α] {x : α} {seen l : List α}
    (hx : x ∈ firstSeenAux seen l) : x ∉ seen := by
  induction l generalizing seen with
  | nil => simp [firstSeenAux] at hx
  | cons y t ih =>
    simp only [firstSeenAux] at hx
    split at hx
    · exact ih hx
    · rcases List.mem_cons.1 hx with rfl | h
      · assumption
      · intro hc
        exact (ih h) (List.mem_cons_of_mem _ hc)

/-- Lemma: `firstSeenAux` output has no duplicates. -/
theorem firstSeenAux_nodup [DecidableEq α] (seen l : List α) :
    (firstSeenAux seen l).Nodup := by
  induction l generalizing seen with
  | nil => simp [firstSeenAux]
  | cons y t ih =>
    simp only [firstSeenAux]
    split
    · exact ih seen
    · exact List.nodup_cons.2
        ⟨fun hy => (mem_firstSeenAux_not_seen hy) (List.mem_cons_self y seen), ih (y :: seen)⟩

/-- C7: each of the highlights, services and promotions extractors
deduplicates while preserving first-seen order (the output is a
duplicate-free sublist of the collected candidate stream) and caps the
result at 8, 6 and 5 entries respectively. -/
theorem extractors_dedup_capped (sel : List (List (List Char))) :
    ((extract_highlights sel).length ≤ 8 ∧ (extract_highlights sel).Nodup ∧
      (extract_highlights sel).Sublist (collectTexts 10 2 50 sel)) ∧
    ((extract_services sel).length ≤ 6 ∧ (extract_services sel).Nodup ∧
      (extract_services sel).Sublist (collectTexts 10 2 50 sel)) ∧
    ((extract_promotions sel).length ≤ 5 ∧ (extract_promotions sel).Nodup ∧
      (extract_promotions sel).Sublist (collectTexts 5 3 100 sel)) := by
  have hcap : ∀ (n : Nat) (c : List (List Char)),
      ((firstSeen c).take n).length ≤ n ∧ ((firstSeen c).take n).Nodup ∧
        ((firstSeen c).take n).Sublist c := by
    intro n c
    refine ⟨?_, ?_, ?_⟩
    · simp
    · exact List.Nodup.sublist ((firstSeen c).take_sublist n) (firstSeenAux_nodup [] c)
    · exact ((firstSeen c).take_sublist n).trans (firstSeenAux_sublist [] c)
  exact ⟨hcap 8 _, hcap 6 _, hcap 5 _⟩

/-- The identifiers under which `imgLoop` keeps URLs are exactly the
first-seen deduplication of the identifiers of the candidates that pass
the seller filter, relative to the running `seen_ids`. -/
theorem imgLoop_map_fst (seller_id : Option (List Char)) (urls : List (List Char)) :
    ∀ seen, (imgLoop seller_id seen urls).map Prod.fst =
      firstSeenAux seen
        ((urls.filter (fun u => !sellerSkip seller_id u)).filterMap extractImgId) := by
  induction urls with
  | nil => intro seen; simp [imgLoop, firstSeenAux]
  | cons u rest ih =>
    intro seen
    cases hskip : sellerSkip seller_id u with
    | true => simp [imgLoop, List.filter_cons, hskip, ih]
    | false =>
      cases hid : extractImgId u with
      | none => simp [imgLoop, List.filter_cons, hskip, hid, ih]
      | some img_id =>
        simp only [imgLoop, List.filter_cons, hskip, hid, Bool.not_false, if_pos,
          Bool.false_eq_true, if_false, List.filterMap_cons, firstSeenAux]
        by_cases hseen : img_id ∈ seen
        · simp [hseen, ih]
        · simp [hseen, ih]

/-- C2: for every seller identity and candidate list, the image
resolver's output keeps each embedded content identifier at most once
(the kept identifiers are duplicate-free), the kept identifiers are the
first-seen deduplication, in encounter order, of the identifiers of the
filtered candidates, and the output URLs are the resolved forms of the
kept candidates in that same order. -/
theorem main_images_dedup_first_seen (seller_id : Option (List Char))
    (candidates : List (List Char)) :
    extract_main_images seller_id candidates = (imgLoop seller_id [] candidates).map Prod.snd ∧
    ((imgLoop seller_id [] candidates).map Prod.fst).Nodup ∧
    (imgLoop seller_id [] candidates).map Prod.fst =
      firstSeen
        ((candidates.filter (fun u => !sellerSkip seller_id u)).filterMap extractImgId) := by
  refine ⟨rfl, ?_, imgLoop_map_fst seller_id candidates []⟩
  rw [imgLoop_map_fst seller_id candidates []]
  exact firstSeenAux_nodup [] _

/-- C8: when the seller-identity vote finds no identity, `imgLoop`
applies no filter at all — it coincides with the bare
deduplicate-and-resolve pipeline on every candidate list. -/
theorem no_seller_id_no_filter (candidates : List (List Char)) :
    extract_main_images none candidates = (dedupResolve [] candidates).map Prod.snd := by
  have h : ∀ (urls : List (List Char)) (seen : List (List Char)),
      imgLoop none seen urls = dedupResolve seen urls := by
    intro urls
    induction urls with
    | nil => intro seen; rfl
    | cons u rest ih =>
      intro seen
      cases hid : extractImgId u with
      | none =>
        simp only [imgLoop, dedupResolve, sellerSkip, Bool.false_eq_true, if_false, hid]
        exact ih seen
      | some img_id =>
        simp only [imgLoop, dedupResolve, sellerSkip, Bool.false_eq_true, if_false, hid]
        by_cases hseen : img_id ∈ seen
        · simp [hseen, ih]
        · simp [hseen, ih]
  rw [extract_main_images, h]

/-- C4 counterexample: the high-resolution rewrite is NOT idempotent on
every URL — on a URL with a stacked quality suffix one application
strips only the outermost suffix and a second application strips again. -/
theorem clean_image_url_not_idempotent :
    cleanImageUrl (cleanImageUrl ("https://img.alicdn.com/x.jpg_q50.jpg_q50.jpg".toList)) ≠
      cleanImageUrl ("https://img.alicdn.com/x.jpg_q50.jpg_q50.jpg".toList) := by
  decide

/-- C4 (amended): the rewrite rules are no-ops on already-resolved URLs —
any URL matching none of the three strippable suffix patterns is returned
unchanged, and hence applying the rewrite twice to it equals applying it
once. -/
theorem clean_image_url_noop_on_resolved (s : List Char)
    (h1 : matchQualityWebp s = false) (h2 : matchQualityJpg s = false)
    (h3 : matchSizeWebp s = false) :
    cleanImageUrl s = s ∧ cleanImageUrl (cleanImageUrl s) = cleanImageUrl s := by
  have hid : cleanImageUrl s = s := by
    unfold cleanImageUrl
    simp only [h1, Bool.false_eq_true, if_false]
    simp only [h2, Bool.false_eq_true, if_false]
    simp only [h3, Bool.false_eq_true, if_false]
  exact ⟨hid, by rw [hid]; exact hid⟩

/-- C4 witness: a concrete already-resolved URL on which the rewrite is a
no-op and therefore idempotent. -/
theorem clean_image_url_noop_witness :
    cleanImageUrl ("https://img.alicdn.com/i2/O1CN01abc.jpg_.webp".toList) =
      ("https://img.alicdn.com/i2/O1CN01abc.jpg_.webp".toList) ∧
    cleanImageUrl (cleanImageUrl ("https://img.alicdn.com/i2/O1CN01abc.jpg_.webp".toList)) =
      cleanImageUrl ("https://img.alicdn.com/i2/O1CN01abc.jpg_.webp".toList) :=
  clean_image_url_noop_on_resolved ("https://img.alicdn.com/i2/O1CN01abc.jpg_.webp".toList)
    (by decide) (by decide) (by decide)

/-- The running-maximum fold either keeps the initial best (when nothing
strictly beats it) or returns the first element of the list whose count
strictly exceeds everything before it and is not exceeded after. -/
theorem voteAux_spec (cnt : List Char → Nat) (t : List (List Char)) :
    ∀ b : List Char,
      (voteAux cnt b t = b ∧ ∀ y ∈ t, cnt y ≤ cnt b) ∨
      (cnt b < cnt (voteAux cnt b t) ∧ ∃ pre post, t = pre ++ voteAux cnt b t :: post ∧
        (∀ y ∈ pre, cnt y < cnt (voteAux cnt b t)) ∧
        (∀ y ∈ post, cnt y ≤ cnt (voteAux cnt b t))) := by
  induction t with
  | nil =>
    intro b
    left
    exact ⟨rfl, by simp⟩
  | cons x rest ih =>
    intro b
    by_cases hxb : cnt b < cnt x
    · have hstep : voteAux cnt b (x :: rest) = voteAux cnt x rest := by
        simp [voteAux, hxb]
      rcases ih x with ⟨heq, hall⟩ | ⟨hlt, pre, post, hsplit, hpre, hpost⟩
      · right
        rw [hstep, heq]
        exact ⟨hxb, [], rest, rfl, by simp, hall⟩
      · right
        rw [hstep]
        refine ⟨lt_trans hxb hlt, x :: pre, post, by rw [List.cons_append, ← hsplit], ?_, hpost⟩
        intro y hy
        rcases List.mem_cons.1 hy with rfl | h
        · exact hlt
        · exact hpre y h
    · have hstep : voteAux cnt b (x :: rest) = voteAux cnt b rest := by
        simp [voteAux, hxb]
      rcases ih b with ⟨heq, hall⟩ | ⟨hlt, pre, post, hsplit, hpre, hpost⟩
      · left
        rw [hstep, heq]
        refine ⟨rfl, ?_⟩
        intro y hy
        rcases List.mem_cons.1 hy with rfl | h
        · exact Nat.le_of_not_lt hxb
        · exact hall y h
      · right
        rw [hstep]
        refine ⟨hlt, x :: pre, post, by rw [List.cons_append, ← hsplit], ?_, hpost⟩
        intro y hy
        rcases List.mem_cons.1 hy with rfl | h
        · exact Nat.lt_of_le_of_lt (Nat.le_of_not_lt hxb) hlt
        · exact hpre y h

/-- Lemma: `most_common1` returns the element of maximal count, with ties broken
by first occurrence: everything strictly before its first occurrence has
a strictly smaller count, everything in the list has a count at most its
count. -/
theorem most_common1_spec (l : List (List Char)) (x : List Char)
    (h : most_common1 l = some x) :
    ∃ pre post, l = pre ++ x :: post ∧
      (∀ y ∈ pre, l.count y < l.count x) ∧
      (∀ y ∈ l, l.count y ≤ l.count x) := by
  match l with
  | [] => simp [most_common1] at h
  | a :: t =>
    have hx : voteAux (fun s => (a :: t).count s) a t = x := by
      simpa [most_common1] using h
    rcases voteAux_spec (fun s => (a :: t).count s) t a with
      ⟨heq, hall⟩ | ⟨hlt, pre, post, hsplit, hpre, hpost⟩
    · rw [heq] at hx
      subst hx
      refine ⟨[], t, rfl, by simp, ?_⟩
      intro y hy
      rcases List.mem_cons.1 hy with rfl | h2
      · exact Nat.le_refl _
      · exact hall y h2
    · rw [hx] at hlt hsplit hpre hpost
      refine ⟨a :: pre, post, by rw [List.cons_append, ← hsplit], ?_, ?_⟩
      · intro y hy
        rcases List.mem_cons.1 hy with rfl | h2
        · exact hlt
        · exact hpre y h2
      · intro y hy
        rcases List.mem_cons.1 hy with rfl | h2
        · exact Nat.le_of_lt hlt
        · rw [hsplit] at h2
          rcases List.mem_append.1 h2 with h3 | h3
          · exact Nat.le_of_lt (hpre y h3)
          · rcases List.mem_cons.1 h3 with rfl | h4
            · exact Nat.le_refl _
            · exact hpost y h4

/-- C3: whenever any non-generic seller-identifier token occurs in the
markup, the seller vote selects a token that is non-generic, occurs at
least as often as every other surviving token, and precedes (in scan
order) every other token of the same count. -/
theorem seller_vote_most_frequent_first (content : List Char) (x : List Char)
    (hne : realIds content ≠ [])
    (hx : extract_seller_id content = some x) :
    (∀ y ∈ realIds content, isGenericId y = false) ∧
    (∀ y ∈ realIds content, (realIds content).count y ≤ (realIds content).count x) ∧
    ∃ pre post, realIds content = pre ++ x :: post ∧
      ∀ y ∈ pre, (realIds content).count y < (realIds content).count x := by
  have hmc : most_common1 (realIds content) = some x := by
    unfold extract_seller_id at hx
    rcases hm : most_common1 (realIds content) with _ | z
    · exfalso
      rcases hr : realIds content with _ | ⟨a, t⟩
      · exact hne hr
      · rw [hr] at hm
        simp [most_common1] at hm
    · rw [hm] at hx
      simp only [Option.some.injEq] at hx
      rw [hx]
  rcases most_common1_spec (realIds content) x hmc with ⟨pre, post, hsplit, hpre, hall⟩
  refine ⟨?_, hall, pre, post, hsplit, hpre⟩
  intro y hy
  have := List.mem_filter.1 hy
  simpa using this.2

set_option maxRecDepth 100000 in
/-- C3 witness: on the synthetic markup with token A 5 times, token B
2 times and a platform-generic token 10 times, the vote selects A. -/
theorem seller_vote_witness :
    realIds voteContent ≠ [] ∧
    extract_seller_id voteContent = some ("1111111111".toList) ∧
    ((∀ y ∈ realIds voteContent, isGenericId y = false) ∧
     (∀ y ∈ realIds voteContent,
        (realIds voteContent).count y ≤ (realIds voteContent).count ("1111111111".toList)) ∧
     ∃ pre post, realIds voteContent = pre ++ ("1111111111".toList) :: post ∧
       ∀ y ∈ pre, (realIds voteContent).count y < (realIds voteContent).count ("1111111111".toList)) :=
  ⟨by decide, by decide,
    seller_vote_most_frequent_first voteContent ("1111111111".toList) (by decide) (by decide)⟩

/-- Closed form of the download loop: it keeps exactly the successful
attempts, paired with their 1-based attempt indices, in input order. -/
theorem download_images_eq_filterMap (fetch : Nat → List Char → FetchOutcome) :
    ∀ (urls : List (List Char)) (i : Nat),
      download_images fetch i urls = (urls.enumFrom i).filterMap
        (fun p => if fetchIsOk (fetch p.1 (fixProtocol p.2)) then
          some (p.1, imageFileName p.1 (fixProtocol p.2)) else none) := by
  intro urls
  induction urls with
  | nil => intro i; rfl
  | cons u rest ih =>
    intro i
    simp only [download_images, List.enumFrom, List.filterMap_cons]
    by_cases h : fetchIsOk (fetch i (fixProtocol u)) = true
    · simp [h, ih]
    · simp [h, ih]

/-- C5: the downloader skips each failed fetch without aborting the rest:
its output is the ordered sublist of successful attempts, so
`local_images` is never longer than the attempted count; and in the
concrete 3-URL scenario where only the second attempt fails, exactly the
1st and 3rd files are produced, in order. -/
theorem download_failures_skipped (fetch : Nat → List Char → FetchOutcome)
    (urls : List (List Char)) (output_dir : List Char) :
    download_images fetch 1 urls = (urls.enumFrom 1).filterMap
      (fun p => if fetchIsOk (fetch p.1 (fixProtocol p.2)) then
        some (p.1, imageFileName p.1 (fixProtocol p.2)) else none) ∧
    (localImagePaths output_dir fetch urls).length ≤ urls.length ∧
    localImagePaths ("out".toList) demoFetch demoUrls =
      ["out/images/main_01.jpg".toList, "out/images/main_03.jpg".toList] := by
  refine ⟨download_images_eq_filterMap fetch urls 1, ?_, by decide⟩
  calc (localImagePaths output_dir fetch urls).length
      = (download_images fetch 1 urls).length := List.length_map _ _
    _ = ((urls.enumFrom 1).filterMap _).length := by
        rw [download_images_eq_filterMap fetch urls 1]
    _ ≤ (urls.enumFrom 1).length := List.length_filterMap_le _ _
    _ = urls.length := List.enumFrom_length

/-- When every attempt succeeds, the download loop is a plain map over
the enumerated URLs. -/
theorem download_images_all_ok (fetch : Nat → List Char → FetchOutcome) :
    ∀ (urls : List (List Char)) (i : Nat),
      (∀ p ∈ urls.enumFrom i, fetchIsOk (fetch p.1 (fixProtocol p.2)) = true) →
      download_images fetch i urls = (urls.enumFrom i).map
        (fun p => (p.1, imageFileName p.1 (fixProtocol p.2))) := by
  intro urls
  induction urls with
  | nil => intro i _; rfl
  | cons u rest ih =>
    intro i hall
    have h1 : fetchIsOk (fetch i (fixProtocol u)) = true :=
      hall (i, u) (by simp [List.enumFrom])
    have h2 : ∀ p ∈ rest.enumFrom (i + 1), fetchIsOk (fetch p.1 (fixProtocol p.2)) = true := by
      intro p hp
      exact hall p (by simp [List.enumFrom, hp])
    simp only [download_images, List.enumFrom, List.map_cons, h1, if_true]
    rw [ih (i + 1) h2]

/-- C9: for every fully-successful batch, each downloaded image is
written under the output directory as `images/main_{NN}{ext}`: the name
is `main_` plus the 2-digit zero-padded attempt index plus an extension
inferred from the source URL (`.png` when the URL mentions it, `.jpg`
otherwise), and the written indices are exactly `1, 2, ..., n`. -/
theorem download_success_filenames (fetch : Nat → List Char → FetchOutcome)
    (urls : List (List Char)) (output_dir : List Char)
    (hall : ∀ p ∈ urls.enumFrom 1, fetchIsOk (fetch p.1 (fixProtocol p.2)) = true) :
    download_images fetch 1 urls = (urls.enumFrom 1).map
      (fun p => (p.1, "main_".toList ++ pad2 p.1 ++
        (if containsSub (".png".toList) (fixProtocol p.2) then ".png".toList
         else ".jpg".toList))) ∧
    (download_images fetch 1 urls).map Prod.fst = List.range' 1 urls.length ∧
    localImagePaths output_dir fetch urls = (urls.enumFrom 1).map
      (fun p => output_dir ++ "/images/".toList ++
        ("main_".toList ++ pad2 p.1 ++
          (if containsSub (".png".toList) (fixProtocol p.2) then ".png".toList
           else ".jpg".toList))) := by
  have hmain := download_images_all_ok fetch urls 1 hall
  refine ⟨hmain, ?_, ?_⟩
  · rw [hmain, List.map_map]
    exact List.enumFrom_map_fst 1 urls
  · rw [localImagePaths, hmain, List.map_map]
    rfl

/-- C9 witness: a concrete fully-successful 3-URL batch produces
`main_01.jpg`, `main_02.jpg`, `main_03.jpg` under `out/images/`. -/
theorem download_success_witness :
    (∀ p ∈ demoUrls.enumFrom 1, fetchIsOk (demoFetchOk p.1 (fixProtocol p.2)) = true) ∧
    ((download_images demoFetchOk 1 demoUrls).map Prod.fst =
      List.range' 1 demoUrls.length ∧
     localImagePaths ("out".toList) demoFetchOk demoUrls = (demoUrls.enumFrom 1).map
      (fun p => "out".toList ++ "/images/".toList ++
        ("main_".toList ++ pad2 p.1 ++
          (if containsSub (".png".toList) (fixProtocol p.2) then ".png".toList
           else ".jpg".toList)))) :=
  ⟨by decide,
    (download_success_filenames demoFetchOk demoUrls ("out".toList) (by decide)).2⟩

/-- A successful registry construction always returns the freshly
initialized scraper state. -/
theorem createFromRegistry_ok (p : List Char) (st : TaobaoScraperState)
    (h : createFromRegistry p = Except.ok st) : st = taobaoScraperInit := by
  unfold createFromRegistry at h
  split at h
  · exact absurd h (by simp)
  · next e heq =>
    rcases e with ⟨k, cls⟩
    cases cls
    simpa using h.symm

/-- C6 (amended): a platform tag that is not a URL (no `http` after
lowercasing) and is not registered, or a URL containing neither
`taobao.com` nor `tmall.com`, is rejected with a `ValueError`; and any
successfully constructed scraper holds no browser resources — its
context and engine handles are still `None`. -/
theorem factory_create_unknown_rejected (platform : List Char) :
    ("http".toList.isPrefixOf (toLowerL platform) = false →
      scraperRegistry.find? (fun e => e.1 == toLowerL platform) = none →
      factory_create platform =
        Except.error ("Unsupported platform: ".toList ++ toLowerL platform)) ∧
    ("http".toList.isPrefixOf (toLowerL platform) = true →
      containsSub ("taobao.com".toList) (toLowerL platform) = false →
      containsSub ("tmall.com".toList) (toLowerL platform) = false →
      factory_create platform =
        Except.error ("Cannot detect platform from URL: ".toList ++ toLowerL platform)) ∧
    (∀ st, factory_create platform = Except.ok st →
      st.context = none ∧ st.playwright = none) := by
  refine ⟨?_, ?_, ?_⟩
  · intro hp hf
    unfold factory_create
    rw [if_neg (by rw [hp]; exact Bool.false_ne_true)]
    unfold createFromRegistry
    rw [hf]
  · intro hp h1 h2
    unfold factory_create
    rw [if_pos hp, if_neg (by rw [h1, h2]; simp)]
  · intro st hok
    unfold factory_create at hok
    split at hok
    · split at hok
      · rw [createFromRegistry_ok _ _ hok]
        exact ⟨rfl, rfl⟩
      · exact absurd hok (by simp)
    · rw [createFromRegistry_ok _ _ hok]
      exact ⟨rfl, rfl⟩

/-- C6 witness: the unregistered tag `unknown-store` and a URL with no
known platform substring are both rejected, and constructing the
registered `taobao` scraper allocates no browser. -/
theorem factory_create_unknown_witness :
    factory_create ("unknown-store".toList) =
      Except.error ("Unsupported platform: ".toList ++ toLowerL ("unknown-store".toList)) ∧
    factory_create ("http://example.org/item".toList) =
      Except.error ("Cannot detect platform from URL: ".toList ++
        toLowerL ("http://example.org/item".toList)) ∧
    (∀ st, factory_create ("taobao".toList) = Except.ok st →
      st.context = none ∧ st.playwright = none) :=
  ⟨(factory_create_unknown_rejected _).1 (by decide) (by decide),
   (factory_create_unknown_rejected _).2.1 (by decide) (by decide) (by decide),
   (factory_create_unknown_rejected _).2.2⟩

/-- C6 counterexample: `create` checks substring containment over the
whole URL, not the URL's domain — this URL's domain is `evil.example`,
which matches no known platform and is not a registered tag, yet
`create` succeeds (no `ValueError` is raised). -/
theorem factory_create_foreign_domain_accepted :
    urlDomain ("http://evil.example/taobao.com".toList) = "evil.example".toList ∧
    containsSub ("taobao.com".toList)
      (urlDomain ("http://evil.example/taobao.com".toList)) = false ∧
    containsSub ("tmall.com".toList)
      (urlDomain ("http://evil.example/taobao.com".toList)) = false ∧
    scraperRegistry.find?
      (fun e => e.1 == ("http://evil.example/taobao.com".toList)) = none ∧
    factory_create ("http://evil.example/taobao.com".toList) =
      Except.ok taobaoScraperInit :=
  ⟨by decide, by decide, by decide, by decide, rfl⟩

end PixelleVideo
